import Mathlib

/-!
Verification of `s3_multipart_uploader.py` (multipart S3 uploader with
integrity checking) against its natural-language specification.

The development shallowly embeds the program's components:

* `get_file_hash` (source lines 21-30): streaming digest of a file's bytes,
  base64-encoded.  The chunked `hash_obj.update` loop is digest-equivalent to
  hashing the whole byte sequence, so files are modelled as `List Nat`
  (byte values) and the digest is taken over the whole list.  MD5 and SHA-256
  are implemented bit-for-bit (RFC 1321 / FIPS 180-4) over `Nat` with explicit
  `% 2^32` truncation.
* `split_input_file` (lines 33-49): pieces of at most `file_piece_size` bytes,
  produced by sequential reads.  The piece count is computed by the source as
  `int(math.ceil(input_file_size / float(file_piece_size)))`; the `float`
  division is modelled exactly (round-to-nearest-even, 53-bit significand).
* `upload_file_pieces` (lines 52-132): the multipart-upload session.  The
  remote store is modelled by an environment `S3Env` fixing the outcome of
  each remote call, and a run is reduced to its result (normal return or the
  propagated exception) plus the trace of remote calls made.
* `upload_file` (lines 135-159): the orchestrator with its temp-directory
  lifecycle.
-/

namespace S3MU

/-! ### 32-bit words as `Nat` -/

/-- Truncation to a 32-bit word. -/
def m32 (n : Nat) : Nat := n % 4294967296

/-- Bitwise complement on 32-bit words (values below `2^32`). -/
def not32 (n : Nat) : Nat := 4294967295 - n

/-- Left rotation of a 32-bit word by `s` bits (`0 ≤ s ≤ 32`). -/
def rotl32 (x s : Nat) : Nat := Nat.lor (m32 (Nat.shiftLeft x s)) (Nat.shiftRight x (32 - s))

/-- Right rotation of a 32-bit word by `s` bits (`0 ≤ s ≤ 32`). -/
def rotr32 (x s : Nat) : Nat := Nat.lor (Nat.shiftRight x s) (m32 (Nat.shiftLeft x (32 - s)))

/-- The four bytes of a 32-bit word, little-endian. -/
def toBytesLE32 (n : Nat) : List Nat :=
  [n % 256, n / 256 % 256, n / 65536 % 256, n / 16777216 % 256]

/-- The four bytes of a 32-bit word, big-endian. -/
def toBytesBE32 (n : Nat) : List Nat :=
  [n / 16777216 % 256, n / 65536 % 256, n / 256 % 256, n % 256]

/-- The eight bytes of a 64-bit word, little-endian. -/
def toBytesLE64 (n : Nat) : List Nat :=
  toBytesLE32 (n % 4294967296) ++ toBytesLE32 (n / 4294967296 % 4294967296)

/-- The eight bytes of a 64-bit word, big-endian. -/
def toBytesBE64 (n : Nat) : List Nat :=
  toBytesBE32 (n / 4294967296 % 4294967296) ++ toBytesBE32 (n % 4294967296)

/-- Word `i` of a 64-byte block, read little-endian (MD5). -/
def wordLE (block : List Nat) (i : Nat) : Nat :=
  block.getD (4*i) 0 + 256 * block.getD (4*i+1) 0 +
    65536 * block.getD (4*i+2) 0 + 16777216 * block.getD (4*i+3) 0

/-- Word `i` of a 64-byte block, read big-endian (SHA-256). -/
def wordBE (block : List Nat) (i : Nat) : Nat :=
  16777216 * block.getD (4*i) 0 + 65536 * block.getD (4*i+1) 0 +
    256 * block.getD (4*i+2) 0 + block.getD (4*i+3) 0

/-! ### Base64 (Python `base64.b64encode`) -/

/-- The standard base64 alphabet. -/
def b64alphabet : List Char :=
  "ABCDEFGHIJKLMNOPQRSTUVWXYZabcdefghijklmnopqrstuvwxyz0123456789+/".toList

/-- Character for a 6-bit group. -/
def b64char (n : Nat) : Char := b64alphabet.getD n 'A'

/-- Standard base64 encoding of a byte sequence, with `=` padding. -/
def base64Encode : List Nat → List Char
  | [] => []
  | [a] => [b64char (a / 4), b64char (a % 4 * 16), '=', '=']
  | [a, b] => [b64char (a / 4), b64char (a % 4 * 16 + b / 16), b64char (b % 16 * 4), '=']
  | a :: b :: c :: rest =>
      b64char (a / 4) :: b64char (a % 4 * 16 + b / 16) ::
        b64char (b % 16 * 4 + c / 64) :: b64char (c % 64) :: base64Encode rest

/-! ### MD5 (RFC 1321) -/

/-- MD5 per-step additive constants `K[i] = floor(abs(sin(i+1)) * 2^32)`. -/
def md5K : List Nat := [
  3614090360, 3905402710, 606105819, 3250441966, 4118548399, 1200080426, 2821735955, 4249261313,
  1770035416, 2336552879, 4294925233, 2304563134, 1804603682, 4254626195, 2792965006, 1236535329,
  4129170786, 3225465664, 643717713, 3921069994, 3593408605, 38016083, 3634488961, 3889429448,
  568446438, 3275163606, 4107603335, 1163531501, 2850285829, 4243563512, 1735328473, 2368359562,
  4294588738, 2272392833, 1839030562, 4259657740, 2763975236, 1272893353, 4139469664, 3200236656,
  681279174, 3936430074, 3572445317, 76029189, 3654602809, 3873151461, 530742520, 3299628645,
  4096336452, 1126891415, 2878612391, 4237533241, 1700485571, 2399980690, 4293915773, 2240044497,
  1873313359, 4264355552, 2734768916, 1309151649, 4149444226, 3174756917, 718787259, 3951481745]

/-- MD5 per-step left-rotation amounts. -/
def md5S : List Nat := [
  7, 12, 17, 22, 7, 12, 17, 22, 7, 12, 17, 22, 7, 12, 17, 22,
  5, 9, 14, 20, 5, 9, 14, 20, 5, 9, 14, 20, 5, 9, 14, 20,
  4, 11, 16, 23, 4, 11, 16, 23, 4, 11, 16, 23, 4, 11, 16, 23,
  6, 10, 15, 21, 6, 10, 15, 21, 6, 10, 15, 21, 6, 10, 15, 21]

/-- MD5 round function for step `i`. -/
def md5F (i b c d : Nat) : Nat :=
  if i < 16 then Nat.lor (Nat.land b c) (Nat.land (not32 b) d)
  else if i < 32 then Nat.lor (Nat.land d b) (Nat.land (not32 d) c)
  else if i < 48 then Nat.xor b (Nat.xor c d)
  else Nat.xor c (Nat.lor b (not32 d))

/-- MD5 message-word index for step `i`. -/
def md5G (i : Nat) : Nat :=
  if i < 16 then i
  else if i < 32 then (5*i + 1) % 16
  else if i < 48 then (3*i + 5) % 16
  else 7*i % 16

/-- One MD5 step on the state `(a, b, c, d)`. -/
def md5Step (block : List Nat) (i : Nat) : Nat × Nat × Nat × Nat → Nat × Nat × Nat × Nat
  | (a, b, c, d) =>
      let f := m32 (md5F i b c d + a + md5K.getD i 0 + wordLE block (md5G i))
      (d, m32 (b + rotl32 f (md5S.getD i 0)), b, c)

/-- Steps `i, i+1, ..., i+n-1` of the MD5 compression function. -/
def md5Loop (block : List Nat) : Nat → Nat → Nat × Nat × Nat × Nat → Nat × Nat × Nat × Nat
  | _, 0, st => st
  | i, n+1, st => md5Loop block (i+1) n (md5Step block i st)

/-- MD5 compression of consecutive 64-byte blocks (fuel-based recursion). -/
def md5Blocks : Nat → List Nat → Nat × Nat × Nat × Nat → Nat × Nat × Nat × Nat
  | 0, _, st => st
  | _+1, [], st => st
  | fuel+1, bs, (a0, b0, c0, d0) =>
      let (a, b, c, d) := md5Loop (bs.take 64) 0 64 (a0, b0, c0, d0)
      md5Blocks fuel (bs.drop 64) (m32 (a0 + a), m32 (b0 + b), m32 (c0 + c), m32 (d0 + d))

/-- MD5 padding: a `0x80` byte, zeros to 56 mod 64, then the bit length (little-endian). -/
def md5Pad (msg : List Nat) : List Nat :=
  msg ++ 128 :: List.replicate ((64 + 56 - (msg.length + 1) % 64) % 64) 0 ++
    toBytesLE64 (8 * msg.length % 18446744073709551616)

/-- MD5 digest (16 bytes) of a byte sequence. -/
def md5 (msg : List Nat) : List Nat :=
  let padded := md5Pad msg
  let (a, b, c, d) :=
    md5Blocks (padded.length + 1) padded (1732584193, 4023233417, 2562383102, 271733878)
  toBytesLE32 a ++ toBytesLE32 b ++ toBytesLE32 c ++ toBytesLE32 d

/-! ### SHA-256 (FIPS 180-4) -/

/-- SHA-256 round constants. -/
def sha256K : List Nat := [
  1116352408, 1899447441, 3049323471, 3921009573, 961987163, 1508970993, 2453635748, 2870763221,
  3624381080, 310598401, 607225278, 1426881987, 1925078388, 2162078206, 2614888103, 3248222580,
  3835390401, 4022224774, 264347078, 604807628, 770255983, 1249150122, 1555081692, 1996064986,
  2554220882, 2821834349, 2952996808, 3210313671, 3336571891, 3584528711, 113926993, 338241895,
  666307205, 773529912, 1294757372, 1396182291, 1695183700, 1986661051, 2177026350, 2456956037,
  2730485921, 2820302411, 3259730800, 3345764771, 3516065817, 3600352804, 4094571909, 275423344,
  430227734, 506948616, 659060556, 883997877, 958139571, 1322822218, 1537002063, 1747873779,
  1955562222, 2024104815, 2227730452, 2361852424, 2428436474, 2756734187, 3204031479, 3329325298]

/-- SHA-256 small sigma 0. -/
def ssig0 (x : Nat) : Nat := Nat.xor (rotr32 x 7) (Nat.xor (rotr32 x 18) (Nat.shiftRight x 3))

/-- SHA-256 small sigma 1. -/
def ssig1 (x : Nat) : Nat := Nat.xor (rotr32 x 17) (Nat.xor (rotr32 x 19) (Nat.shiftRight x 10))

/-- SHA-256 big sigma 0. -/
def bsig0 (x : Nat) : Nat := Nat.xor (rotr32 x 2) (Nat.xor (rotr32 x 13) (rotr32 x 22))

/-- SHA-256 big sigma 1. -/
def bsig1 (x : Nat) : Nat := Nat.xor (rotr32 x 6) (Nat.xor (rotr32 x 11) (rotr32 x 25))

/-- SHA-256 choice function. -/
def sha256Ch (e f g : Nat) : Nat := Nat.xor (Nat.land e f) (Nat.land (not32 e) g)

/-- SHA-256 majority function. -/
def sha256Maj (a b c : Nat) : Nat :=
  Nat.xor (Nat.land a b) (Nat.xor (Nat.land a c) (Nat.land b c))

/-- Message schedule built left to right: appends words until `n` more are added. -/
def sha256Schedule (block : List Nat) : Nat → List Nat → List Nat
  | 0, w => w
  | n+1, w =>
      let i := w.length
      let next :=
        if i < 16 then wordBE block i
        else m32 (w.getD (i-16) 0 + ssig0 (w.getD (i-15) 0) + w.getD (i-7) 0 + ssig1 (w.getD (i-2) 0))
      sha256Schedule block n (w ++ [next])

/-- SHA-256 state: eight 32-bit words. -/
def Sha256St : Type := Nat × Nat × Nat × Nat × Nat × Nat × Nat × Nat

/-- One SHA-256 round. -/
def sha256Round (w : List Nat) (i : Nat) : Sha256St → Sha256St
  | (a, b, c, d, e, f, g, h) =>
      let t1 := m32 (h + bsig1 e + sha256Ch e f g + sha256K.getD i 0 + w.getD i 0)
      let t2 := m32 (bsig0 a + sha256Maj a b c)
      (m32 (t1 + t2), a, b, c, m32 (d + t1), e, f, g)

/-- Rounds `i, i+1, ..., i+n-1` of the SHA-256 compression function. -/
def sha256Loop (w : List Nat) : Nat → Nat → Sha256St → Sha256St
  | _, 0, st => st
  | i, n+1, st => sha256Loop w (i+1) n (sha256Round w i st)

/-- SHA-256 compression of consecutive 64-byte blocks (fuel-based recursion). -/
def sha256Blocks : Nat → List Nat → Sha256St → Sha256St
  | 0, _, st => st
  | _+1, [], st => st
  | fuel+1, bs, (a0, b0, c0, d0, e0, f0, g0, h0) =>
      let w := sha256Schedule (bs.take 64) 64 []
      let (a, b, c, d, e, f, g, h) := sha256Loop w 0 64 (a0, b0, c0, d0, e0, f0, g0, h0)
      sha256Blocks fuel (bs.drop 64)
        (m32 (a0 + a), m32 (b0 + b), m32 (c0 + c), m32 (d0 + d),
         m32 (e0 + e), m32 (f0 + f), m32 (g0 + g), m32 (h0 + h))

/-- SHA-256 padding: a `0x80` byte, zeros to 56 mod 64, then the bit length (big-endian). -/
def sha256Pad (msg : List Nat) : List Nat :=
  msg ++ 128 :: List.replicate ((64 + 56 - (msg.length + 1) % 64) % 64) 0 ++
    toBytesBE64 (8 * msg.length % 18446744073709551616)

/-- SHA-256 digest (32 bytes) of a byte sequence. -/
def sha256 (msg : List Nat) : List Nat :=
  let padded := sha256Pad msg
  let (a, b, c, d, e, f, g, h) :=
    sha256Blocks (padded.length + 1) padded
      (1779033703, 3144134277, 1013904242, 2773480762,
       1359893119, 2600822924, 528734635, 1541459225)
  toBytesBE32 a ++ toBytesBE32 b ++ toBytesBE32 c ++ toBytesBE32 d ++
    toBytesBE32 e ++ toBytesBE32 f ++ toBytesBE32 g ++ toBytesBE32 h

/-! ### The hasher `get_file_hash` (source lines 21-30)

The source dereferences `getattr(hashlib, algorithm)`: a name `hashlib` does
not provide raises `AttributeError` before any data is read, modelled as
`HashError.unsupportedAlgorithm`.  Only the two algorithms this repository
exercises (`md5`, the declared default, and `sha256`) are given computational
models; `hashlibAlgorithms` records the full set of names `hashlib`
guarantees, so that theorems about unrecognized names only quantify over
names outside that set. -/

/-- Error outcome of the hasher. -/
inductive HashError where
  | unsupportedAlgorithm
  deriving DecidableEq

/-- Algorithm names guaranteed to be provided by Python's `hashlib`. -/
def hashlibAlgorithms : List String :=
  ["md5", "sha1", "sha224", "sha256", "sha384", "sha512"]

/-- The default value of the `algorithm` parameter in the source signature
`def get_file_hash(filename, algorithm='md5')`. -/
def defaultAlgorithm : String := "md5"

/-- Model of `get_file_hash`: digest of the file's bytes, base64-encoded.
The chunked read loop feeds the whole file through `hash_obj.update`, which
is digest-equivalent to a single update with the whole content. -/
def get_file_hash (content : List Nat) (algorithm : String) : Except HashError String :=
  if algorithm = "md5" then .ok (String.mk (base64Encode (md5 content)))
  else if algorithm = "sha256" then .ok (String.mk (base64Encode (sha256 content)))
  else .error .unsupportedAlgorithm

/-- The whole-file MD5 digest used by the orchestrator (`get_file_hash` with
the default algorithm, which always succeeds). -/
def md5B64 (content : List Nat) : String := String.mk (base64Encode (md5 content))

/-- The byte values of an ASCII string (Python 2 `str` bytes). -/
def strBytes (s : String) : List Nat := s.toList.map Char.toNat

/-- The 50-byte fixed test input from `tests/test_s3_multipart_uploader.py`. -/
def SMALL_TESTFILE_CONTENT : String :=
  "+ELokXtvOjByfb92hqVRE74SOaA0B2AS3iwtPkjv74HTY76sqt"

example : md5 (strBytes "abc") =
    [144, 1, 80, 152, 60, 210, 79, 176, 214, 150, 63, 125, 40, 225, 127, 114] := by decide

/-! ### The splitter `split_input_file` (source lines 33-49)

The source computes the piece count as
`int(math.ceil(input_file_size / float(file_piece_size)))`.  The division is
performed in IEEE-754 double precision, so it is modelled exactly: the true
quotient rounded to a 53-bit significand, round-half-to-even.  The model
assumes the double's normal range (no overflow or subnormals), which covers
every byte count a file can have.  `math.ceil` and `int()` are exact on
nonnegative doubles. -/

/-- Round-half-to-even of the fraction `a / b` (`b > 0`) to an integer. -/
def rhe (a b : Nat) : Nat :=
  let q := a / b
  let r := a % b
  if 2*r < b then q
  else if b < 2*r then q + 1
  else if q % 2 = 0 then q else q + 1

/-- Fuel-based `⌊log2 n⌋` (structural recursion so that it evaluates in the
kernel; `log2f n n` computes `⌊log2 n⌋` for `n ≥ 1`). -/
def log2f : Nat → Nat → Nat
  | 0, _ => 0
  | fuel+1, n => if n < 2 then 0 else log2f fuel (n / 2) + 1

/-- `⌊log2 n⌋` for `n ≥ 1` (0 at 0). -/
def log2n (n : Nat) : Nat := log2f n n

/-- `⌊log2 (a / b)⌋` as an integer, for `a, b ≥ 1`. -/
def ilog2q (a b : Nat) : Int :=
  let k := log2n b + 1
  let t := a * 2^k / b
  (log2n t : Int) - (k : Int)

/-- Model of CPython `a / float(b)` for naturals with `b > 0`: the exact
quotient rounded to 53 significant bits, round-half-to-even, represented as
`(significand, exponent)` with value `significand * 2^exponent`.  The model
is meaningful only for `b > 0`: at `b = 0` the source raises
`ZeroDivisionError`, so every theorem about the splitter or the orchestrator
carries a `0 < file_piece_size` hypothesis. -/
def floatDiv (a b : Nat) : Nat × Int :=
  if a = 0 then (0, 0)
  else
    let e := ilog2q a b
    if e ≤ 52 then (rhe (a * 2^(52 - e).toNat) b, e - 52)
    else (rhe a (b * 2^(e - 52).toNat), e - 52)

/-- `int(math.ceil(x))` of a nonnegative double `(significand, exponent)`. -/
def ceilPow2 : Nat × Int → Nat
  | (sig, e) => if 0 ≤ e then sig * 2^e.toNat else (sig + 2^(-e).toNat - 1) / 2^(-e).toNat

/-- Model of `num_file_pieces = int(math.ceil(input_file_size / float(file_piece_size)))`
(source line 35). -/
def num_file_pieces (input_file_size file_piece_size : Nat) : Nat :=
  ceilPow2 (floatDiv input_file_size file_piece_size)

/-- Model of `split_input_file` (source lines 33-49): the loop reads
`file_piece_size` bytes at a time from the sequentially-read input file and
writes each chunk to piece file `index + 1`, returning the piece files in
ascending index order.  Read `index` of the stream yields the bytes
`[index * file_piece_size, index * file_piece_size + file_piece_size)`.
Pieces are modelled by their byte contents. -/
def split_input_file (content : List Nat) (file_piece_size : Nat) : List (List Nat) :=
  (List.range (num_file_pieces content.length file_piece_size)).map
    (fun index => (content.drop (index * file_piece_size)).take file_piece_size)

/-- The exact ceiling `⌈n / p⌉` the spec prescribes for the piece count. -/
def ceilDiv (n p : Nat) : Nat := (n + p - 1) / p

/-! ### The upload session `upload_file_pieces` (source lines 52-132)

The remote store (`boto3` S3 client) is the external boundary: an `S3Env`
fixes the outcome of every remote call, and a run is reduced to its outcome
(normal return, or the exception it propagates) together with the trace of
remote calls it made, in order.  Python exception semantics are modelled
faithfully: an exception raised inside the `try` body runs the `finally`
block and then propagates, and an exception raised inside the `finally`
block itself supersedes the in-flight one. -/

/-- A remote call made by the program, with the arguments the claims are
about. -/
inductive Event where
  | createMultipartUpload (metadataMd5 : String)
  | uploadPart (partNumber : Nat) (contentMD5 : String)
  | completeMultipartUpload (parts : List (String × Nat))
  | abortMultipartUpload
  | headObject
  deriving DecidableEq

/-- The exception a run can propagate. -/
inductive Err where
  | createError
  | partUploadError (partNumber : Nat)
  | completeError
  | abortError
  | assertionError (description : String)
  deriving DecidableEq

/-- Outcomes of the remote calls of one run.  `partETag n` is the `ETag`
returned by `upload_part` for part number `n`, or `none` when that call
raises; `completeOk` tells whether `complete_multipart_upload` returns (its
response then carries an `ETag`); `headMetadataMd5` and `headContentLength`
are what `head_object` reports for the finalized object. -/
structure S3Env where
  createOk : Bool
  partETag : Nat → Option String
  completeOk : Bool
  abortOk : Bool
  headMetadataMd5 : String
  headContentLength : Nat

/-- Loop of source lines 72-96 starting at `index`: upload each remaining
piece (its hash is sent as `ContentMD5`), accumulating
`{'ETag': ..., 'PartNumber': index + 1}` acknowledgments in order, stopping
at the first failing `upload_part` call. -/
def uploadPartsFrom (env : S3Env) : Nat → List String → Except Err (List (String × Nat)) × List Event
  | _, [] => (.ok [], [])
  | index, pieceHash :: rest =>
      match env.partETag (index + 1) with
      | none => (.error (.partUploadError (index + 1)), [.uploadPart (index + 1) pieceHash])
      | some etag =>
          let pr := uploadPartsFrom env (index + 1) rest
          (pr.1.map (fun parts => (etag, index + 1) :: parts),
           .uploadPart (index + 1) pieceHash :: pr.2)

/-- The verification assertion tuple of source lines 116-127: description and
truth of `assertion['expected'] == assertion['found']`, in source order. -/
def assertions (expected_hash found_hash : String) (expected_size found_size : Nat) :
    List (String × Bool) :=
  [("hashes for combined files are equal", expected_hash == found_hash),
   ("file sizes of combined files are equal", expected_size == found_size)]

/-- The `for assertion in assertions: assert ...` loop of source lines
128-131: returns the descriptions whose checks passed (each printed as
`Passed check ...`) and the description of the first failing check (whose
`assert` raises `AssertionError`), if any. -/
def runAssertions : List (String × Bool) → List String × Option String
  | [] => ([], none)
  | (description, ok) :: rest =>
      if ok then
        let (passed, failed) := runAssertions rest
        (description :: passed, failed)
      else ([], some description)

/-- Equality of `Except` values is decidable when it is on both sides. -/
instance exceptDecEq {ε α : Type} [DecidableEq ε] [DecidableEq α] :
    DecidableEq (Except ε α) := fun a b =>
  match a, b with
  | .ok a, .ok b =>
      if h : a = b then isTrue (by rw [h]) else isFalse (fun hh => h (Except.ok.inj hh))
  | .ok _, .error _ => isFalse (fun hh => Except.noConfusion hh)
  | .error _, .ok _ => isFalse (fun hh => Except.noConfusion hh)
  | .error e, .error e' =>
      if h : e = e' then isTrue (by rw [h]) else isFalse (fun hh => h (Except.error.inj hh))

/-- Result of a run of `upload_file_pieces`: normal return (`.ok`) or the
propagated exception, plus the ordered trace of remote calls. -/
structure RunResult where
  result : Except Err Unit
  events : List Event
  deriving DecidableEq

/-- Model of `upload_file_pieces` (source lines 52-132).

* lines 61-66: `create_multipart_upload` with the whole-file hash as
  metadata; if it raises, nothing else runs.
* lines 71-104 (`try` body): upload every piece in order, then
  `complete_multipart_upload` with the accumulated part list.
* lines 105-113 (`finally`): when `complete_mpu_response` carries no
  `'ETag'` — exactly when the `try` body did not finish `complete`
  successfully — `abort_multipart_upload` is called; if the abort itself
  raises, its exception supersedes the in-flight one.
* lines 115-131: on normal exit from `try`/`finally`, `head_object` and the
  two verification assertions. -/
def upload_file_pieces (env : S3Env) (expected_complete_file_hash : String)
    (expected_complete_file_size : Nat) (pieceHashes : List String) : RunResult :=
  if !env.createOk then
    ⟨.error .createError, [.createMultipartUpload expected_complete_file_hash]⟩
  else
    let pr := uploadPartsFrom env 0 pieceHashes
    let tryEvs : List Event :=
      match pr.1 with
      | .error _ => pr.2
      | .ok fileparts => pr.2 ++ [Event.completeMultipartUpload fileparts]
    let tryRes : Except Err Unit :=
      match pr.1 with
      | .error e => .error e
      | .ok _ => if env.completeOk then .ok () else .error .completeError
    let headEvs := Event.createMultipartUpload expected_complete_file_hash :: tryEvs
    match tryRes with
    | .error e =>
        if env.abortOk then ⟨.error e, headEvs ++ [.abortMultipartUpload]⟩
        else ⟨.error .abortError, headEvs ++ [.abortMultipartUpload]⟩
    | .ok () =>
        let evs := headEvs ++ [Event.headObject]
        match (runAssertions (assertions expected_complete_file_hash env.headMetadataMd5
            expected_complete_file_size env.headContentLength)).2 with
        | some description => ⟨.error (.assertionError description), evs⟩
        | none => ⟨.ok (), evs⟩

/-! ### The orchestrator `upload_file` (source lines 135-159) -/

/-- Result of a run of `upload_file`: the run's outcome, its remote-call
trace, and whether the temporary piece directory was removed by the
`finally` block of lines 152-159. -/
structure UploadFileResult where
  result : Except Err Unit
  s3Events : List Event
  tempDirDeleted : Bool
  deriving DecidableEq

/-- Model of `upload_file` (source lines 135-159): make a temporary
directory, split the source file into pieces, run `upload_file_pieces` with
the whole-file MD5 hash and byte size and the piece hashes (each piece file
is re-read and hashed at upload time, source line 74), and in a `finally`
block delete the temporary directory unless `keep_file_pieces` was set.
The deletion runs on every exit path, whether or not the session raised. -/
def upload_file (env : S3Env) (content : List Nat) (file_piece_size : Nat)
    (keep_file_pieces : Bool) : UploadFileResult :=
  let file_piece_contents := split_input_file content file_piece_size
  let inner := upload_file_pieces env (md5B64 content) content.length
    (file_piece_contents.map md5B64)
  { result := inner.result
    s3Events := inner.events
    tempDirDeleted := !keep_file_pieces }

/-- Evaluation order of source line 148: `get_file_hash(original_filename)`
is evaluated as an argument before `upload_file_pieces` is entered, so a
hasher failure propagates before any remote call is made.  This generalizes
`upload_file` over the result of that hash call and returns the remote-call
trace of the run. -/
def upload_file_events (env : S3Env) (hashResult : Except HashError String)
    (expected_complete_file_size : Nat) (pieceHashes : List String) : List Event :=
  match hashResult with
  | .error _ => []
  | .ok h => (upload_file_pieces env h expected_complete_file_size pieceHashes).events

/-! ### Concrete remote-store environments used as test inputs -/

/-- Every remote call succeeds and the stored object matches
(hash `"H"`, 50 bytes). -/
def envOk : S3Env :=
  ⟨true, fun n => some (String.append "e" (toString n)), true, true, "H", 50⟩

/-- Every `upload_part` call raises; `abort_multipart_upload` succeeds. -/
def envPartFail : S3Env := ⟨true, fun _ => none, true, true, "H", 50⟩

/-- Every `upload_part` call raises and `abort_multipart_upload` raises too. -/
def envPartAbortFail : S3Env := ⟨true, fun _ => none, true, false, "H", 50⟩

/-- Remote calls succeed but the stored object matches neither the expected
hash `"H"` nor the expected size 50. -/
def envBothMismatch : S3Env := ⟨true, fun _ => some "e", true, true, "G", 49⟩

/-! ### Helper lemmas: splitter -/

/-- The splitter returns one piece per loop iteration. -/
theorem split_input_file_length (content : List Nat) (p : Nat) :
    (split_input_file content p).length = num_file_pieces content.length p := by
  simp [split_input_file]

/-- Summing `min p (len - i*p)` over `i < ceilDiv len p` chunks restores the
whole list: concatenating the sequential reads reconstructs the file. -/
theorem chunks_join (p : Nat) (hp : 0 < p) :
    ∀ (N : Nat) (l : List Nat), ceilDiv l.length p = N →
      ((List.range N).map (fun i => (l.drop (i * p)).take p)).flatten = l := by
  intro N
  induction N with
  | zero =>
      intro l hl
      have hlen : l.length = 0 := by
        unfold ceilDiv at hl
        have := (Nat.div_eq_zero_iff hp).mp hl
        omega
      rw [List.length_eq_zero.mp hlen]
      simp
  | succ N ih =>
      intro l hl
      have hlen : 1 ≤ l.length := by
        by_contra hcon
        have h0 : l.length = 0 := by omega
        have : ceilDiv l.length p = 0 := by
          unfold ceilDiv
          rw [h0]
          exact Nat.div_eq_of_lt (by omega)
        omega
      have hN : (l.length - 1) / p = N := by
        unfold ceilDiv at hl
        have he : l.length + p - 1 = (l.length - 1) + p := by omega
        rw [he, Nat.add_div_right _ hp] at hl
        omega
      have hdroplen : ceilDiv (l.drop p).length p = N := by
        rw [List.length_drop]
        by_cases hc : l.length ≤ p
        · have h0 : l.length - p = 0 := by omega
          have hsmall : (l.length - 1) / p = 0 := Nat.div_eq_of_lt (by omega)
          unfold ceilDiv
          rw [h0]
          rw [Nat.div_eq_of_lt (by omega)]
          omega
        · unfold ceilDiv
          have he : l.length - p + p - 1 = (l.length - p - 1) + p := by omega
          rw [he, Nat.add_div_right _ hp]
          have he2 : l.length - 1 = (l.length - p - 1) + p := by omega
          rw [he2, Nat.add_div_right _ hp] at hN
          omega
      have hfun : ((fun i => (l.drop (i * p)).take p) ∘ Nat.succ) =
          (fun i => ((l.drop p).drop (i * p)).take p) := by
        funext i
        simp only [Function.comp_apply, List.drop_drop, Nat.succ_mul, Nat.add_comm]
      rw [List.range_succ_eq_map, List.map_cons, List.map_map, hfun, List.flatten_cons,
        ih (l.drop p) hdroplen]
      simp [List.take_append_drop]

/-! ### Helper lemmas: part-upload loop -/

/-- Every remote call the part-upload loop makes is an `upload_part` call. -/
theorem uploadPartsFrom_events_shape (env : S3Env) :
    ∀ (pieceHashes : List String) (idx : Nat) (e : Event),
      e ∈ (uploadPartsFrom env idx pieceHashes).2 → ∃ n hsh, e = Event.uploadPart n hsh := by
  intro hs
  induction hs with
  | nil =>
      intro idx e he
      simp [uploadPartsFrom] at he
  | cons a rest ih =>
      intro idx e he
      unfold uploadPartsFrom at he
      cases hpe : env.partETag (idx + 1) with
      | none =>
          rw [hpe] at he
          simp at he
          exact ⟨idx + 1, a, he⟩
      | some etag =>
          rw [hpe] at he
          simp at he
          rcases he with he | he
          · exact ⟨idx + 1, a, he⟩
          · exact ih (idx + 1) e he

/-- A successful part-upload loop acknowledges exactly the part numbers
`idx+1, ..., idx+n` in ascending order, one per piece. -/
theorem uploadPartsFrom_ok_parts (env : S3Env) :
    ∀ (pieceHashes : List String) (idx : Nat) (parts : List (String × Nat)),
      (uploadPartsFrom env idx pieceHashes).1 = .ok parts →
      parts.map Prod.snd = List.range' (idx + 1) pieceHashes.length ∧
      parts.length = pieceHashes.length := by
  intro hs
  induction hs with
  | nil =>
      intro idx parts hok
      simp [uploadPartsFrom] at hok
      simp [← hok]
  | cons a rest ih =>
      intro idx parts hok
      unfold uploadPartsFrom at hok
      cases hpe : env.partETag (idx + 1) with
      | none =>
          rw [hpe] at hok
          simp at hok
      | some etag =>
          rw [hpe] at hok
          dsimp only at hok
          cases hrec : (uploadPartsFrom env (idx + 1) rest).1 with
          | error e =>
              rw [hrec] at hok
              simp [Except.map] at hok
          | ok tl =>
              rw [hrec] at hok
              simp [Except.map] at hok
              rcases ih (idx + 1) tl hrec with ⟨hmap, hlen⟩
              rw [← hok]
              constructor
              · rw [List.length_cons, List.range'_succ, List.map_cons, hmap]
              · simp [hlen]

/-- The part-upload loop returns acknowledgments exactly when every remaining
part's `upload_part` call succeeds. -/
theorem uploadPartsFrom_ok_iff (env : S3Env) :
    ∀ (pieceHashes : List String) (idx : Nat),
      (∃ parts, (uploadPartsFrom env idx pieceHashes).1 = .ok parts) ↔
      (∀ i, i < pieceHashes.length → (env.partETag (idx + i + 1)).isSome = true) := by
  intro hs
  induction hs with
  | nil =>
      intro idx
      simp [uploadPartsFrom]
  | cons a rest ih =>
      intro idx
      unfold uploadPartsFrom
      cases hpe : env.partETag (idx + 1) with
      | none =>
          apply iff_of_false
          · rintro ⟨parts, hcon⟩
            exact Except.noConfusion hcon
          · intro hall
            have h0 := hall 0 (by simp)
            rw [Nat.add_zero, hpe] at h0
            simp at h0
      | some etag =>
          constructor
          · rintro ⟨parts, hok⟩ i hi
            dsimp only at hok
            cases i with
            | zero =>
                rw [Nat.add_zero, hpe]
                rfl
            | succ j =>
                have hj : j < rest.length := by
                  simpa using hi
                cases hrec : (uploadPartsFrom env (idx + 1) rest).1 with
                | error e =>
                    rw [hrec] at hok
                    simp [Except.map] at hok
                | ok tl =>
                    have harith : idx + (j + 1) + 1 = idx + 1 + j + 1 := by omega
                    rw [harith]
                    exact (ih (idx + 1)).mp ⟨tl, hrec⟩ j hj
          · intro hall
            have hrest : ∀ i, i < rest.length → (env.partETag (idx + 1 + i + 1)).isSome = true := by
              intro i hi
              have := hall (i + 1) (by simpa using Nat.succ_lt_succ hi)
              have harith : idx + (i + 1) + 1 = idx + 1 + i + 1 := by omega
              rw [harith] at this
              exact this
            rcases (ih (idx + 1)).mpr hrest with ⟨tl, htl⟩
            refine ⟨(etag, idx + 1) :: tl, ?_⟩
            simp [htl, Except.map]

/-! ### Helper lemmas: branch characterizations of `upload_file_pieces` -/

/-- When some part upload (or any step of the `try` body before `complete`)
raises, the `finally` block aborts and the run propagates either the
triggering error (abort succeeded) or the abort error (abort raised). -/
theorem upload_file_pieces_abort_path (env : S3Env) (h : String) (s : Nat) (ps : List String)
    (hc : env.createOk = true) (e : Err)
    (he : (uploadPartsFrom env 0 ps).1 = .error e) :
    upload_file_pieces env h s ps =
      ⟨if env.abortOk then .error e else .error .abortError,
       Event.createMultipartUpload h :: (uploadPartsFrom env 0 ps).2 ++
         [Event.abortMultipartUpload]⟩ := by
  unfold upload_file_pieces
  rw [hc]
  simp only [Bool.not_true, Bool.false_eq_true, if_false]
  rw [he]
  cases hab : env.abortOk <;> simp [he]

/-- When every part upload succeeds but `complete_multipart_upload` raises,
the `finally` block aborts. -/
theorem upload_file_pieces_complete_fail_path (env : S3Env) (h : String) (s : Nat)
    (ps : List String) (hc : env.createOk = true) (parts : List (String × Nat))
    (hok : (uploadPartsFrom env 0 ps).1 = .ok parts) (hcomp : env.completeOk = false) :
    upload_file_pieces env h s ps =
      ⟨if env.abortOk then .error .completeError else .error .abortError,
       Event.createMultipartUpload h :: ((uploadPartsFrom env 0 ps).2 ++
         [Event.completeMultipartUpload parts]) ++ [Event.abortMultipartUpload]⟩ := by
  unfold upload_file_pieces
  rw [hc]
  simp only [Bool.not_true, Bool.false_eq_true, if_false]
  rw [hok]
  cases hab : env.abortOk <;> simp [hok, hcomp]

/-- When every part upload and the finalize succeed, the run proceeds to
`head_object` and the verification loop, and no abort happens. -/
theorem upload_file_pieces_verified_path (env : S3Env) (h : String) (s : Nat)
    (ps : List String) (hc : env.createOk = true) (parts : List (String × Nat))
    (hok : (uploadPartsFrom env 0 ps).1 = .ok parts) (hcomp : env.completeOk = true) :
    upload_file_pieces env h s ps =
      ⟨match (runAssertions (assertions h env.headMetadataMd5 s env.headContentLength)).2 with
        | some d => .error (.assertionError d)
        | none => .ok (),
       Event.createMultipartUpload h :: ((uploadPartsFrom env 0 ps).2 ++
         [Event.completeMultipartUpload parts]) ++ [Event.headObject]⟩ := by
  unfold upload_file_pieces
  rw [hc]
  simp only [Bool.not_true, Bool.false_eq_true, if_false]
  rw [hok]
  cases hra : (runAssertions (assertions h env.headMetadataMd5 s env.headContentLength)).2 <;>
    simp [hok, hcomp, hra]

/-- The two verification assertions run in source order and stop at the
first failure: the digest check is asserted first, the size check is reached
only when the digest check passed. -/
theorem runAssertions_assertions (eh fh : String) (es fs : Nat) :
    runAssertions (assertions eh fh es fs) =
      if eh = fh then
        (if es = fs then
          (["hashes for combined files are equal", "file sizes of combined files are equal"],
            none)
         else (["hashes for combined files are equal"],
            some "file sizes of combined files are equal"))
      else ([], some "hashes for combined files are equal") := by
  by_cases h1 : eh = fh <;> by_cases h2 : es = fs <;>
    simp [runAssertions, assertions, h1, h2]

/-- Piece `i` of the splitter's output, for `i` below the piece count. -/
theorem split_input_file_getD (content : List Nat) (p i : Nat)
    (hi : i < num_file_pieces content.length p) :
    (split_input_file content p).getD i [] = (content.drop (i * p)).take p := by
  unfold split_input_file
  rw [List.getD_eq_getElem?_getD, List.getElem?_map, List.getElem?_range hi]
  rfl

/-! ### C3: the splitter's output shape -/

/-- C3 counterexample: the claim quantifies over every source file and every
positive piece size, but the piece count is computed through double-precision
float division, which loses the low bit of a file size of `2^53 + 1`: with
piece size 1 the code produces `2^53` pieces (dropping the final byte), not
the claimed `ceil((2^53 + 1) / 1) = 2^53 + 1` pieces. -/
theorem C3_counterexample :
    ¬ ((split_input_file (List.replicate (2^53 + 1) 0) 1).length = ceilDiv (2^53 + 1) 1 ∧
       ((split_input_file (List.replicate (2^53 + 1) 0) 1).map List.length).sum = 2^53 + 1) := by
  intro hcl
  have hlen := hcl.1
  rw [split_input_file_length, List.length_replicate] at hlen
  revert hlen
  decide

/-- C3 (amended): for every source file and positive `file_piece_size` whose
float-computed piece count `int(math.ceil(size / float(piece_size)))` agrees
with the exact `ceil(size / piece_size)` — which holds for every realizable
file size, and in particular whenever `size ≤ 2^52` — `split_input_file`
produces exactly `ceil(size / piece_size)` pieces in ascending index order
whose concatenation in output order is the source file (so their sizes sum to
the source size), every piece at most `file_piece_size` bytes and all but
possibly the last exactly `file_piece_size` bytes; in particular a 50-byte
file with piece size 20 yields three pieces of sizes 20, 20, 10 in that
order. -/
theorem C3_split_correct (content : List Nat) (p : Nat) (hp : 0 < p)
    (hfloat : num_file_pieces content.length p = ceilDiv content.length p) :
    (split_input_file content p).length = ceilDiv content.length p ∧
    (split_input_file content p).flatten = content ∧
    ((split_input_file content p).map List.length).sum = content.length ∧
    (∀ piece ∈ split_input_file content p, piece.length ≤ p) ∧
    (∀ i, i + 1 < (split_input_file content p).length →
      ((split_input_file content p).getD i []).length = p) ∧
    (split_input_file (List.range 50) 20).map List.length = [20, 20, 10] := by
  have hlen : (split_input_file content p).length = ceilDiv content.length p := by
    rw [split_input_file_length, hfloat]
  have hjoin : (split_input_file content p).flatten = content := by
    unfold split_input_file
    rw [hfloat]
    exact chunks_join p hp _ content rfl
  refine ⟨hlen, hjoin, ?_, ?_, ?_, by decide⟩
  · rw [← List.length_flatten, hjoin]
  · intro piece hmem
    rcases List.mem_map.mp hmem with ⟨i, _, hpe⟩
    rw [← hpe, List.length_take]
    exact min_le_left _ _
  · intro i hi
    have hi' : i < num_file_pieces content.length p := by
      rw [split_input_file_length] at hi
      omega
    rw [split_input_file_getD content p i hi', List.length_take, List.length_drop]
    have hcount : i + 2 ≤ (content.length + p - 1) / p := by
      rw [hlen] at hi
      unfold ceilDiv at hi
      omega
    have hmul : (i + 2) * p ≤ content.length + p - 1 :=
      le_trans (Nat.mul_le_mul_right p hcount) (Nat.div_mul_le_self _ p)
    have hexp : (i + 2) * p = i * p + 2 * p := by ring
    have : i * p + p ≤ content.length := by omega
    omega

/-- C3 witness: the amended claim at the 50-byte file `List.range 50` with
piece size 20 (where the float piece count is exactly 3). -/
theorem C3_witness :
    (split_input_file (List.range 50) 20).length = ceilDiv 50 20 ∧
    (split_input_file (List.range 50) 20).flatten = List.range 50 ∧
    (split_input_file (List.range 50) 20).map List.length = [20, 20, 10] := by
  have h := C3_split_correct (List.range 50) 20 (by decide) (by decide)
  refine ⟨?_, ?_, h.2.2.2.2.2⟩
  · rw [List.length_range] at h
    exact h.1
  · exact h.2.1

/-! ### C7: the known digest vectors -/

set_option maxRecDepth 100000 in
/-- C7: on the 50-byte fixed test input, the hasher returns the literal
base64 MD5 digest under the default algorithm and the literal base64 SHA-256
digest when `sha256` is requested. -/
theorem C7_known_vectors :
    get_file_hash (strBytes SMALL_TESTFILE_CONTENT) defaultAlgorithm =
      .ok "CoM0C8BkxBNJJJyzEO+PYw==" ∧
    get_file_hash (strBytes SMALL_TESTFILE_CONTENT) "sha256" =
      .ok "2GMyryXzElFw2g5yZxpPEU8dgoIRv9FNHoZeTSKU67s=" :=
  ⟨rfl, rfl⟩

/-! ### C9: unrecognized algorithm names -/

/-- C9: calling the hasher with an algorithm name `hashlib` does not provide
fails with the unsupported-algorithm error (`AttributeError` at
`getattr(hashlib, algorithm)`), and when that hash call is the one the
orchestrator evaluates before entering `upload_file_pieces`, the run makes no
remote-store call at all. -/
theorem C9_unsupported_algorithm (algorithm : String) (content : List Nat)
    (halg : algorithm ∉ hashlibAlgorithms) :
    get_file_hash content algorithm = .error .unsupportedAlgorithm ∧
    ∀ env s pieceHashes, upload_file_events env (get_file_hash content algorithm) s pieceHashes = [] := by
  have h1 : algorithm ≠ "md5" := fun h => halg (by rw [h]; simp [hashlibAlgorithms])
  have h2 : algorithm ≠ "sha256" := fun h => halg (by rw [h]; simp [hashlibAlgorithms])
  have herr : get_file_hash content algorithm = .error .unsupportedAlgorithm := by
    unfold get_file_hash
    rw [if_neg h1, if_neg h2]
  exact ⟨herr, fun env s pieceHashes => by rw [herr]; rfl⟩

/-- C9 witness: the unrecognized name `"foo"` on the empty file. -/
theorem C9_witness :
    get_file_hash [] "foo" = .error .unsupportedAlgorithm ∧
    ∀ env s pieceHashes, upload_file_events env (get_file_hash [] "foo") s pieceHashes = [] :=
  C9_unsupported_algorithm "foo" [] (by decide)

/-! ### C1: exactly one terminal outcome per begun session -/

/-- C1: for every session begun by a successful `create_multipart_upload`,
exactly one of the two terminal outcomes is reached before control returns:
either `complete_multipart_upload` is called and succeeds (and no abort
happens), or `abort_multipart_upload` is invoked (in particular whenever a
part upload raises or the finalize itself raises); no session is left in
progress. -/
theorem C1_session_exactly_one_terminal (env : S3Env) (h : String) (s : Nat)
    (ps : List String) (hc : env.createOk = true) :
    (((∃ parts, Event.completeMultipartUpload parts ∈ (upload_file_pieces env h s ps).events) ∧
        env.completeOk = true) ∧
      Event.abortMultipartUpload ∉ (upload_file_pieces env h s ps).events) ∨
    (¬ ((∃ parts, Event.completeMultipartUpload parts ∈ (upload_file_pieces env h s ps).events) ∧
        env.completeOk = true) ∧
      Event.abortMultipartUpload ∈ (upload_file_pieces env h s ps).events) := by
  cases hres : (uploadPartsFrom env 0 ps).1 with
  | error e =>
      right
      rw [upload_file_pieces_abort_path env h s ps hc e hres]
      constructor
      · rintro ⟨⟨parts, hmem⟩, -⟩
        simp at hmem
        rcases uploadPartsFrom_events_shape env ps 0 _ hmem with ⟨n, hsh, hcon⟩
        exact Event.noConfusion hcon
      · simp
  | ok parts =>
      cases hcomp : env.completeOk with
      | false =>
          right
          rw [upload_file_pieces_complete_fail_path env h s ps hc parts hres hcomp]
          constructor
          · rintro ⟨-, hcon⟩
            exact Bool.noConfusion hcon
          · simp
      | true =>
          left
          rw [upload_file_pieces_verified_path env h s ps hc parts hres hcomp]
          refine ⟨⟨⟨parts, by simp⟩, rfl⟩, ?_⟩
          intro hmem
          simp at hmem
          rcases uploadPartsFrom_events_shape env ps 0 _ hmem with ⟨n, hsh, hcon⟩
          exact Event.noConfusion hcon

/-- C1 witness: the all-succeeding store with one piece reaches the
`Completed` outcome and never aborts. -/
theorem C1_witness :
    (((∃ parts, Event.completeMultipartUpload parts ∈
          (upload_file_pieces envOk "H" 50 ["p1"]).events) ∧
        envOk.completeOk = true) ∧
      Event.abortMultipartUpload ∉ (upload_file_pieces envOk "H" 50 ["p1"]).events) ∨
    (¬ ((∃ parts, Event.completeMultipartUpload parts ∈
          (upload_file_pieces envOk "H" 50 ["p1"]).events) ∧
        envOk.completeOk = true) ∧
      Event.abortMultipartUpload ∈ (upload_file_pieces envOk "H" 50 ["p1"]).events) :=
  C1_session_exactly_one_terminal envOk "H" 50 ["p1"] rfl

/-! ### C2: normal termination requires a verified object -/

/-- C2: a run of `upload_file_pieces` (with `create` succeeding) returns
normally exactly when every part upload succeeded, the finalize succeeded,
and the stored object's digest metadata and content length equal the
expected whole-file digest and byte size; in particular any digest or size
mismatch makes the run terminate by a raised error. -/
theorem C2_success_iff_verified (env : S3Env) (h : String) (s : Nat) (ps : List String)
    (hc : env.createOk = true) :
    (upload_file_pieces env h s ps).result = .ok () ↔
      ((∀ i, i < ps.length → (env.partETag (i + 1)).isSome = true) ∧
        env.completeOk = true ∧
        env.headMetadataMd5 = h ∧ env.headContentLength = s) := by
  have hiff := uploadPartsFrom_ok_iff env ps 0
  simp only [Nat.zero_add] at hiff
  cases hres : (uploadPartsFrom env 0 ps).1 with
  | error e =>
      rw [upload_file_pieces_abort_path env h s ps hc e hres]
      apply iff_of_false
      · cases hab : env.abortOk <;> simp [hab]
      · rintro ⟨hall, -⟩
        rcases hiff.mpr hall with ⟨parts, hcon⟩
        rw [hres] at hcon
        exact Except.noConfusion hcon
  | ok parts =>
      have hall : ∀ i, i < ps.length → (env.partETag (i + 1)).isSome = true :=
        hiff.mp ⟨parts, hres⟩
      cases hcomp : env.completeOk with
      | false =>
          rw [upload_file_pieces_complete_fail_path env h s ps hc parts hres hcomp]
          apply iff_of_false
          · cases hab : env.abortOk <;> simp [hab]
          · rintro ⟨-, hcon, -⟩
            exact Bool.noConfusion hcon
      | true =>
          rw [upload_file_pieces_verified_path env h s ps hc parts hres hcomp]
          rw [runAssertions_assertions]
          by_cases h1 : h = env.headMetadataMd5
          · by_cases h2 : s = env.headContentLength
            · rw [if_pos h1, if_pos h2]
              exact iff_of_true rfl ⟨hall, rfl, h1.symm, h2.symm⟩
            · rw [if_pos h1, if_neg h2]
              apply iff_of_false
              · simp
              · rintro ⟨-, -, -, hcon⟩
                exact h2 hcon.symm
          · rw [if_neg h1]
            apply iff_of_false
            · simp
            · rintro ⟨-, -, hcon, -⟩
              exact h1 hcon.symm

/-- C2 witness: with the all-succeeding, matching store and one piece, the
run returns normally. -/
theorem C2_witness : (upload_file_pieces envOk "H" 50 ["p1"]).result = .ok () :=
  (C2_success_iff_verified envOk "H" 50 ["p1"] rfl).mpr (by decide)

/-! ### C4: the verification loop short-circuits -/

/-- C4 counterexample: with both the digest and the size mismatched, the
verification loop raises at the first failing check — only the digest check
is reported (no check is reported as passed, and the size mismatch is never
surfaced), contradicting the claim that both checks are evaluated and
reported. -/
theorem C4_counterexample :
    (runAssertions (assertions "H" "G" 50 49)).2 =
      some "hashes for combined files are equal" ∧
    "file sizes of combined files are equal" ∉ (runAssertions (assertions "H" "G" 50 49)).1 ∧
    (runAssertions (assertions "H" "G" 50 49)).2 ≠
      some "file sizes of combined files are equal" ∧
    (upload_file_pieces envBothMismatch "H" 50 ["p1"]).result =
      .error (.assertionError "hashes for combined files are equal") := by
  decide

/-- C4 (amended): after a successful finalize the two verification checks
are evaluated in source order — digest first, then size — and the loop stops
at the first mismatch: a failing digest check raises the digest
`AssertionError` immediately (whatever the size comparison would give), and
the size check is evaluated and reported only when the digest check passed. -/
theorem C4_first_mismatch_only (env : S3Env) (h : String) (s : Nat) (ps : List String)
    (hc : env.createOk = true)
    (hparts : ∀ i, i < ps.length → (env.partETag (i + 1)).isSome = true)
    (hcomp : env.completeOk = true) (hmm : env.headMetadataMd5 ≠ h) :
    (upload_file_pieces env h s ps).result =
      .error (.assertionError "hashes for combined files are equal") ∧
    runAssertions (assertions h env.headMetadataMd5 s env.headContentLength) =
      ([], some "hashes for combined files are equal") := by
  have hiff := uploadPartsFrom_ok_iff env ps 0
  simp only [Nat.zero_add] at hiff
  rcases hiff.mpr hparts with ⟨parts, hres⟩
  have hne : ¬ (h = env.headMetadataMd5) := fun hcon => hmm hcon.symm
  have hra := runAssertions_assertions h env.headMetadataMd5 s env.headContentLength
  rw [if_neg hne] at hra
  constructor
  · rw [upload_file_pieces_verified_path env h s ps hc parts hres hcomp, hra]
  · exact hra

/-- C4 witness: the amended claim at the store whose object mismatches in
both digest and size. -/
theorem C4_witness :
    (upload_file_pieces envBothMismatch "H" 50 ["p1"]).result =
      .error (.assertionError "hashes for combined files are equal") ∧
    runAssertions (assertions "H" envBothMismatch.headMetadataMd5 50
        envBothMismatch.headContentLength) =
      ([], some "hashes for combined files are equal") :=
  C4_first_mismatch_only envBothMismatch "H" 50 ["p1"] rfl (by decide) rfl (by decide)

/-! ### C5: a failing abort replaces the triggering error -/

/-- C5 counterexample: part 1's upload raises (the triggering error is
`partUploadError 1`, as the trace shows: part 1 was attempted and the
`finally` block aborted), the abort itself raises, and the run propagates
the abort error — not the original triggering error, contradicting the
claim that the original error still propagates to the caller. -/
theorem C5_counterexample :
    (upload_file_pieces envPartAbortFail "H" 50 ["p1"]).events =
      [.createMultipartUpload "H", .uploadPart 1 "p1", .abortMultipartUpload] ∧
    (upload_file_pieces envPartAbortFail "H" 50 ["p1"]).result = .error .abortError ∧
    (upload_file_pieces envPartAbortFail "H" 50 ["p1"]).result ≠
      .error (.partUploadError 1) := by
  decide

/-- C5 (amended): when the `try` body fails (a part upload or the finalize
raises) and the abort attempt in the `finally` block itself fails, the abort
failure propagates to the caller in place of the original triggering error —
a `raise` inside `finally` supersedes the in-flight exception. -/
theorem C5_abort_error_replaces (env : S3Env) (h : String) (s : Nat) (ps : List String)
    (hc : env.createOk = true) (ha : env.abortOk = false)
    (htrig : ¬ ((∀ i, i < ps.length → (env.partETag (i + 1)).isSome = true) ∧
      env.completeOk = true)) :
    (upload_file_pieces env h s ps).result = .error .abortError ∧
    Event.abortMultipartUpload ∈ (upload_file_pieces env h s ps).events := by
  have hiff := uploadPartsFrom_ok_iff env ps 0
  simp only [Nat.zero_add] at hiff
  cases hres : (uploadPartsFrom env 0 ps).1 with
  | error e =>
      rw [upload_file_pieces_abort_path env h s ps hc e hres]
      constructor
      · rw [ha]
        rfl
      · simp
  | ok parts =>
      have hall := hiff.mp ⟨parts, hres⟩
      cases hcomp : env.completeOk with
      | true => exact absurd ⟨hall, hcomp⟩ htrig
      | false =>
          rw [upload_file_pieces_complete_fail_path env h s ps hc parts hres hcomp]
          constructor
          · rw [ha]
            rfl
          · simp

/-- C5 witness: the amended claim at the store where part 1 and the abort
both raise. -/
theorem C5_witness :
    (upload_file_pieces envPartAbortFail "H" 50 ["p1"]).result = .error .abortError ∧
    Event.abortMultipartUpload ∈ (upload_file_pieces envPartAbortFail "H" 50 ["p1"]).events :=
  C5_abort_error_replaces envPartAbortFail "H" 50 ["p1"] rfl rfl (by decide)

/-! ### C6: the part list passed to finalize -/

/-- C6: whenever `complete_multipart_upload` is called, the part list passed
to it has exactly one acknowledgment per piece, in piece order, with part
numbers exactly `1..N` ascending — no gaps, duplicates or reordering. -/
theorem C6_part_numbers (env : S3Env) (h : String) (s : Nat) (ps : List String)
    (parts : List (String × Nat))
    (hmem : Event.completeMultipartUpload parts ∈ (upload_file_pieces env h s ps).events) :
    parts.length = ps.length ∧ parts.map Prod.snd = List.range' 1 ps.length := by
  cases hc : env.createOk with
  | false =>
      unfold upload_file_pieces at hmem
      rw [hc] at hmem
      simp at hmem
  | true =>
      cases hres : (uploadPartsFrom env 0 ps).1 with
      | error e =>
          rw [upload_file_pieces_abort_path env h s ps hc e hres] at hmem
          simp at hmem
          rcases uploadPartsFrom_events_shape env ps 0 _ hmem with ⟨n, hsh, hcon⟩
          exact Event.noConfusion hcon
      | ok parts' =>
          have hparts : parts = parts' := by
            have hshape : Event.completeMultipartUpload parts ∈
                (uploadPartsFrom env 0 ps).2 → False := fun hmem' => by
              rcases uploadPartsFrom_events_shape env ps 0 _ hmem' with ⟨n, hsh, hcon⟩
              exact Event.noConfusion hcon
            cases hcomp : env.completeOk with
            | false =>
                rw [upload_file_pieces_complete_fail_path env h s ps hc parts' hres hcomp]
                  at hmem
                simp at hmem
                rcases hmem with hmem | hmem
                · exact absurd hmem hshape
                · exact hmem
            | true =>
                rw [upload_file_pieces_verified_path env h s ps hc parts' hres hcomp] at hmem
                simp at hmem
                rcases hmem with hmem | hmem
                · exact absurd hmem hshape
                · exact hmem
          rw [hparts]
          have := uploadPartsFrom_ok_parts env ps 0 parts' hres
          exact ⟨this.2, this.1⟩

/-- C6 witness: with two pieces and the all-succeeding store, finalize
receives acknowledgments for part numbers `[1, 2]` in order. -/
theorem C6_witness :
    ([("e1", 1), ("e2", 2)] : List (String × Nat)).length = (["p1", "p2"] : List String).length ∧
    ([("e1", 1), ("e2", 2)] : List (String × Nat)).map Prod.snd =
      List.range' 1 (["p1", "p2"] : List String).length :=
  C6_part_numbers envOk "H" 50 ["p1", "p2"] [("e1", 1), ("e2", 2)] (by decide)

/-! ### C8: temporary-directory cleanup on every exit path -/

/-- C8: the temporary piece directory is deleted on every exit path of the
orchestrator — whatever the remote store does (normal completion,
verification failure, upload failure) — exactly when `--keep-file-pieces`
was not passed; and the retention flag changes neither the remote-call trace
(in particular the session-abort behavior) nor the run's outcome. -/
theorem C8_cleanup_every_path (env : S3Env) (content : List Nat) (p : Nat)
    (keep keep' : Bool) :
    ((upload_file env content p keep).tempDirDeleted = !keep) ∧
    (upload_file env content p keep).s3Events = (upload_file env content p keep').s3Events ∧
    (upload_file env content p keep).result = (upload_file env content p keep').result := by
  simp [upload_file]

/-! ### C10: the empty source file -/

/-- C10: on a zero-byte source file, for any positive piece size (at piece
size 0 the source raises `ZeroDivisionError` at line 35 instead), the
splitter returns the empty list and creates no piece files, and the
orchestrator neither rejects the input nor uploads any piece: it still
begins a multipart session and attempts finalize with an empty part list. -/
theorem C10_empty_file (env : S3Env) (p : Nat) (keep : Bool) (hp : 0 < p)
    (hc : env.createOk = true) :
    split_input_file [] p = [] ∧
    Event.createMultipartUpload (md5B64 []) ∈ (upload_file env [] p keep).s3Events ∧
    Event.completeMultipartUpload [] ∈ (upload_file env [] p keep).s3Events ∧
    (∀ n hsh, Event.uploadPart n hsh ∉ (upload_file env [] p keep).s3Events) := by
  have hsplit : split_input_file [] p = [] := by
    simp [split_input_file, num_file_pieces, floatDiv, ceilPow2]
  refine ⟨hsplit, ?_⟩
  have hinner : (upload_file env [] p keep).s3Events =
      (upload_file_pieces env (md5B64 []) 0 []).events := by
    simp [upload_file, hsplit]
  rw [hinner]
  have hres : (uploadPartsFrom env 0 ([] : List String)).1 = .ok [] := rfl
  cases hcomp : env.completeOk with
  | false =>
      rw [upload_file_pieces_complete_fail_path env (md5B64 []) 0 [] hc [] hres hcomp]
      refine ⟨by simp, by simp, ?_⟩
      intro n hsh hmem
      simp [uploadPartsFrom] at hmem
  | true =>
      rw [upload_file_pieces_verified_path env (md5B64 []) 0 [] hc [] hres hcomp]
      refine ⟨by simp, by simp, ?_⟩
      intro n hsh hmem
      simp [uploadPartsFrom] at hmem

/-- C10 witness: the empty file with piece size 20 against the
all-succeeding store. -/
theorem C10_witness :
    split_input_file [] 20 = [] ∧
    Event.createMultipartUpload (md5B64 []) ∈ (upload_file envOk [] 20 false).s3Events ∧
    Event.completeMultipartUpload [] ∈ (upload_file envOk [] 20 false).s3Events ∧
    (∀ n hsh, Event.uploadPart n hsh ∉ (upload_file envOk [] 20 false).s3Events) :=
  C10_empty_file envOk 20 false (by decide) rfl

end S3MU
